import Mathlib

/-!
Verification of `first_cycling_api/race/race.py`.

Shallow embedding conventions:
* Python strings are lists of Unicode codepoints (`List Nat`); `pyStr`
  converts a Lean string literal into that representation.
* The external fetch layer (`fc`), the HTML parser (BeautifulSoup) and the
  endpoint classes are collaborators outside this module.  A fetched and
  parsed search page is therefore modelled as the list of its anchor
  elements in document order, and a fetch that raises is modelled as an
  `Except.error` carrying the exception message.
* Delegations to `_get_endpoint` / `fc.get_race_endpoint` are captured as
  `FetchCall` records holding exactly the keyword arguments the source
  passes; `print` output is captured as a list of emitted lines.
* Integer-valued Python expressions are `Int`/`Nat`; the similarity score
  of `difflib.SequenceMatcher.ratio` is an exact rational (`Rat`).
-/

namespace FirstCycling

/-- Codepoints of a string literal, the bridge between Lean string literals
and the `List Nat` representation of Python strings. -/
def pyStr (s : String) : List Nat :=
  s.data.map Char.toNat

/-- `str.lower` restricted to the ASCII range, the case that matters for the
race titles this module compares. -/
def pyLower (c : Nat) : Nat :=
  if 65 ≤ c ∧ c ≤ 90 then c + 32 else c

/-- The character substitution performed by `re.sub(r'[-]', ' ', text)`. -/
def hyphenToSpace (c : Nat) : Nat :=
  if c = 45 then 32 else c

/-- The codepoints matched by the regex class `\s` (and stripped by
`str.strip()`) in Python 3: ASCII whitespace, the Unicode space separators
and the Unicode line/paragraph separators. -/
def isPySpace (c : Nat) : Bool :=
  c ∈ [9, 10, 11, 12, 13, 28, 29, 30, 31, 32, 133, 160, 5760,
       8192, 8193, 8194, 8195, 8196, 8197, 8198, 8199, 8200, 8201, 8202,
       8232, 8233, 8239, 8287, 12288]

/-- Scanner for `re.sub(r'\s+', ' ', text)`: `prevSpace` records whether
the previous character belonged to a whitespace run whose single
replacement space has already been emitted. -/
def collapseWsAux : Bool → List Nat → List Nat
  | _, [] => []
  | prevSpace, c :: cs =>
    if isPySpace c then
      if prevSpace then collapseWsAux true cs
      else 32 :: collapseWsAux true cs
    else c :: collapseWsAux false cs

/-- `re.sub(r'\s+', ' ', text)`: every maximal run of whitespace characters
is replaced by a single space (codepoint 32). -/
def collapseWs (l : List Nat) : List Nat :=
  collapseWsAux false l

/-- `str.strip()`: remove leading and trailing whitespace. -/
def pyStrip (l : List Nat) : List Nat :=
  ((l.dropWhile isPySpace).reverse.dropWhile isPySpace).reverse

/-- The module-level `normalize` function: lower-case, hyphens to spaces,
collapse whitespace runs, strip the ends. -/
def normalize (text : List Nat) : List Nat :=
  pyStrip (collapseWs ((text.map pyLower).map hyphenToSpace))

/-- State of difflib's `find_longest_match`: the best block found so far. -/
structure FlmState where
  besti : Nat
  bestj : Nat
  bestsize : Nat
deriving DecidableEq

/-- difflib `__chain_b` with `isjunk = None` and `autojunk = True`: an
element of `b` is popular junk when `b` has at least 200 elements and the
element occurs more than `len(b) // 100 + 1` times. -/
def bPopular (b : List Nat) (e : Nat) : Bool :=
  decide (200 ≤ b.length) && decide (b.length / 100 + 1 < b.count e)

/-- difflib `b2j`: the ascending list of positions of `e` in `b`, with
popular junk elements removed. -/
def b2j (b : List Nat) (e : Nat) : List Nat :=
  if bPopular b e then []
  else (List.range b.length).filter (fun j => b.getD j 0 == e)

/-- The inner `for j in b2j.get(a[i], nothing)` loop of
`find_longest_match`: `j2len` is the diagonal-run-length map of the
previous row (zero outside its keys), `newj2len` the one being built, and
`js` holds the positions of `b2j` with `blo ≤ j < bhi` — the source skips
smaller ones with `continue` and breaks at `bhi`.  The `j = 0` guard is
Python's lookup of key `-1`, which is never present; keys below `blo` are
never inserted, so their lookup is 0 in both models. -/
def flmInner (i : Nat) (j2len : Nat → Nat) :
    List Nat → (Nat → Nat) → FlmState → (Nat → Nat) × FlmState
  | [], newj2len, st => (newj2len, st)
  | j :: js, newj2len, st =>
    let k := (if j = 0 then 0 else j2len (j - 1)) + 1
    let newj2len' : Nat → Nat := fun x => if x = j then k else newj2len x
    let st' : FlmState :=
      if st.bestsize < k then ⟨i + 1 - k, j + 1 - k, k⟩ else st
    flmInner i j2len js newj2len' st'

/-- The outer `for i in range(alo, ahi)` loop of `find_longest_match`. -/
def flmOuter (a b : List Nat) (blo bhi : Nat) :
    List Nat → (Nat → Nat) → FlmState → FlmState
  | [], _, st => st
  | i :: rest, j2len, st =>
    let js := ((b2j b (a.getD i 0)).filter (fun j => decide (blo ≤ j))).takeWhile
        (fun j => decide (j < bhi))
    let p := flmInner i j2len js (fun _ => 0) st
    flmOuter a b blo bhi rest p.1 p.2

/-- The first pair of `while` loops after the dynamic-programming pass of
`find_longest_match` extends the best block over adjacent equal elements
whose junk status is `junkSel = false`; the second pair repeats this with
`junkSel = true`.  Each iteration moves one position, so any fuel of at
least `besti` (left) or `ahi` (right) makes the recursion exact. -/
def flmExtendLeft (junkSel : Bool) (a b : List Nat) (isJunk : Nat → Bool)
    (alo blo : Nat) : Nat → FlmState → FlmState
  | 0, st => st
  | fuel + 1, st =>
    if alo < st.besti ∧ blo < st.bestj ∧
        isJunk (b.getD (st.bestj - 1) 0) = junkSel ∧
        a.getD (st.besti - 1) 0 = b.getD (st.bestj - 1) 0 then
      flmExtendLeft junkSel a b isJunk alo blo fuel
        ⟨st.besti - 1, st.bestj - 1, st.bestsize + 1⟩
    else st

/-- Rightward counterpart of `flmExtendLeft`. -/
def flmExtendRight (junkSel : Bool) (a b : List Nat) (isJunk : Nat → Bool)
    (ahi bhi : Nat) : Nat → FlmState → FlmState
  | 0, st => st
  | fuel + 1, st =>
    if st.besti + st.bestsize < ahi ∧ st.bestj + st.bestsize < bhi ∧
        isJunk (b.getD (st.bestj + st.bestsize) 0) = junkSel ∧
        a.getD (st.besti + st.bestsize) 0 = b.getD (st.bestj + st.bestsize) 0 then
      flmExtendRight junkSel a b isJunk ahi bhi fuel
        ⟨st.besti, st.bestj, st.bestsize + 1⟩
    else st

/-- difflib `SequenceMatcher.find_longest_match` on `a[alo:ahi]` and
`b[blo:bhi]`. -/
def find_longest_match (a b : List Nat) (alo ahi blo bhi : Nat) : FlmState :=
  let isJunk := bPopular b
  let st1 := flmOuter a b blo bhi ((List.range ahi).drop alo) (fun _ => 0) ⟨alo, blo, 0⟩
  let st2 := flmExtendLeft false a b isJunk alo blo st1.besti st1
  let st3 := flmExtendRight false a b isJunk ahi bhi ahi st2
  let st4 := flmExtendLeft true a b isJunk alo blo st3.besti st3
  flmExtendRight true a b isJunk ahi bhi ahi st4

/-- Total size of the blocks collected by `get_matching_blocks` on a range:
recursive splitting around each longest match.  Every recursive call
strictly shrinks `(ahi - alo) + (bhi - blo)`, so a fuel of that sum plus
one makes the recursion exact. -/
def matchingSizes (a b : List Nat) : Nat → Nat × Nat × Nat × Nat → Nat
  | 0, _ => 0
  | fuel + 1, (alo, ahi, blo, bhi) =>
    let m := find_longest_match a b alo ahi blo bhi
    if m.bestsize = 0 then 0
    else
      m.bestsize
        + (if alo < m.besti ∧ blo < m.bestj then
            matchingSizes a b fuel (alo, m.besti, blo, m.bestj) else 0)
        + (if m.besti + m.bestsize < ahi ∧ m.bestj + m.bestsize < bhi then
            matchingSizes a b fuel
              (m.besti + m.bestsize, ahi, m.bestj + m.bestsize, bhi) else 0)

/-- `difflib.SequenceMatcher(None, a, b).ratio()` as an exact rational:
twice the number of matched elements over the combined length, and 1 when
both sequences are empty. -/
def similarity (a b : List Nat) : Rat :=
  let total := a.length + b.length
  if total = 0 then 1
  else mkRat (2 * matchingSizes a b (total + 1) (0, a.length, 0, b.length)) total

/-- An anchor element of the parsed search page: its `href` attribute and
its optional `title` attribute.  BeautifulSoup's `find_all("a", href=...)`
only yields anchors that do have an `href`. -/
structure Anchor where
  href : List Nat
  title : Option (List Nat)
deriving DecidableEq

/-- Substring test: does `pat` occur contiguously in the second list? -/
def hasSub (pat : List Nat) : List Nat → Bool
  | [] => pat.isEmpty
  | c :: rest => pat.isPrefixOf (c :: rest) || hasSub pat rest

/-- The filter `href=re.compile(r"race\.php\?r=")` of `find_all` keeps the
anchors whose `href` contains that literal substring. -/
def hasRaceHref (href : List Nat) : Bool :=
  hasSub (pyStr "race.php?r=") href

/-- ASCII decimal digit codepoint. -/
def isDigitCp (c : Nat) : Bool :=
  decide (48 ≤ c ∧ c ≤ 57)

/-- `int` on a string of decimal digit codepoints. -/
def digitsVal (ds : List Nat) : Nat :=
  ds.foldl (fun acc d => 10 * acc + (d - 48)) 0

/-- `re.search(r"r=(\d+)", href)` followed by `int(m.group(1))`: the
leftmost occurrence of `r=` followed by at least one digit, with the
maximal digit run at that position captured. -/
def findRid : List Nat → Option Nat
  | [] => Option.none
  | c :: rest =>
    if c = 114 then
      match rest with
      | 61 :: rest2 =>
        let ds := rest2.takeWhile isDigitCp
        if ds = [] then findRid rest else some (digitsVal ds)
      | _ => findRid rest
    else findRid rest

/-- One iteration of the candidate loop of `search_race_id`: for an anchor
that passed the `href` filter, require a truthy (present and non-empty)
`title`, compute the similarity of the normalized query against the
normalized title, and record the candidate when the similarity reaches the
threshold and the href yields an id. -/
def candidateOf (normQuery : List Nat) (threshold : Rat) (a : Anchor) :
    Option (Nat × List Nat × Rat) :=
  match a.title with
  | Option.none => Option.none
  | some title =>
    if title = [] then Option.none
    else
      let r := similarity normQuery (normalize title)
      if threshold ≤ r then
        match findRid a.href with
        | some race_id => some (race_id, title, r)
        | Option.none => Option.none
      else Option.none

/-- The `matches` list built by `search_race_id`, in document order. -/
def searchMatches (query : List Nat) (anchors : List Anchor)
    (threshold : Rat) : List (Nat × List Nat × Rat) :=
  (anchors.filter (fun a => hasRaceHref a.href)).filterMap
    (candidateOf (normalize query) threshold)

/-- Python `max(matches, key=lambda x: x[2])` on a nonempty list: a fold
that replaces the current best only on a strictly larger key, hence keeps
the first of several equal maxima. -/
def bestBySim (m : Nat × List Nat × Rat) (ms : List (Nat × List Nat × Rat)) :
    Nat × List Nat × Rat :=
  ms.foldl (fun best x => if best.2.2 < x.2.2 then x else best) m

/-- The module-level `search_race_id(query, html, threshold=0.7)`, acting
on the parsed anchor list of the html document. -/
def search_race_id (query : List Nat) (anchors : List Anchor)
    (threshold : Rat := mkRat 7 10) : Option Nat :=
  match searchMatches query anchors threshold with
  | [] => Option.none
  | m :: ms => some (bestBySim m ms).1

/-- The `Race` facade: identified by the integer site id. -/
structure Race where
  ID : Int
deriving DecidableEq

/-- The `RaceEdition` facade: identified by the site id and the year. -/
structure RaceEdition where
  ID : Int
  year : Int
deriving DecidableEq

/-- The endpoint classes a delegation can name (`_default_endpoint` is
`RaceEndpoint`). -/
inductive EndpointKind
  | raceEndpoint
  | raceVictoryTable
  | raceStageVictories
  | raceEditionResults
deriving DecidableEq

/-- A Python value appearing as a keyword argument: `None`, an int or a
string. -/
inductive PyVal
  | vNone
  | vInt (n : Int)
  | vStr (s : List Nat)
deriving DecidableEq

/-- A Python `Optional[int]` argument as a value. -/
def pyOfOptInt : Option Int → PyVal
  | Option.none => PyVal.vNone
  | some n => PyVal.vInt n

/-- One delegated call to `fc.get_race_endpoint` via
`_get_endpoint`/`_get_response`: the race id positional argument, the `y`
kwarg that `RaceEdition._get_response` adds, the named endpoint class and
the per-operation kwargs.  `Option.none` means the kwarg is not passed at
all; `some PyVal.vNone` means Python `None` is passed. -/
structure FetchCall where
  raceId : Int
  y : Option Int
  endpoint : EndpointKind
  k : Option PyVal
  j : Option PyVal
  l : Option PyVal
  e : Option PyVal
deriving DecidableEq

/-- `Race.edition(year)`. -/
def Race.edition (self : Race) (year : Int) : Race × RaceEdition :=
  (self, ⟨self.ID, year⟩)

/-- `Race.overview(classification_num=None)`. -/
def Race.overview (self : Race) (classification_num : Option Int := Option.none) :
    Race × FetchCall :=
  (self,
    { raceId := self.ID, y := Option.none, endpoint := EndpointKind.raceEndpoint,
      k := some (pyOfOptInt classification_num),
      j := Option.none, l := Option.none, e := Option.none })

/-- `Race.victory_table()`. -/
def Race.victory_table (self : Race) : Race × FetchCall :=
  (self,
    { raceId := self.ID, y := Option.none, endpoint := EndpointKind.raceVictoryTable,
      k := some (PyVal.vStr (pyStr "W")),
      j := Option.none, l := Option.none, e := Option.none })

/-- `Race.year_by_year(classification_num=None)`. -/
def Race.year_by_year (self : Race) (classification_num : Option Int := Option.none) :
    Race × FetchCall :=
  (self,
    { raceId := self.ID, y := Option.none, endpoint := EndpointKind.raceEndpoint,
      k := some (PyVal.vStr (pyStr "X")),
      j := some (pyOfOptInt classification_num),
      l := Option.none, e := Option.none })

/-- `Race.youngest_oldest_winners()`. -/
def Race.youngest_oldest_winners (self : Race) : Race × FetchCall :=
  (self,
    { raceId := self.ID, y := Option.none, endpoint := EndpointKind.raceEndpoint,
      k := some (PyVal.vStr (pyStr "Y")),
      j := Option.none, l := Option.none, e := Option.none })

/-- `Race.stage_victories()`. -/
def Race.stage_victories (self : Race) : Race × FetchCall :=
  (self,
    { raceId := self.ID, y := Option.none, endpoint := EndpointKind.raceStageVictories,
      k := some (PyVal.vStr (pyStr "Z")),
      j := Option.none, l := Option.none, e := Option.none })

/-- Decimal digit codepoints, most significant first; the fuel bounds the
number of divisions by ten and `natDigits` supplies enough of it. -/
def natDigitsAux : Nat → Nat → List Nat
  | 0, n => [48 + n % 10]
  | fuel + 1, n =>
    if n < 10 then [48 + n]
    else natDigitsAux fuel (n / 10) ++ [48 + n % 10]

/-- Decimal digit codepoints of a natural number, most significant first. -/
def natDigits (n : Nat) : List Nat :=
  natDigitsAux n n

/-- Python `f-string` formatting with spec `02` on an int: decimal digits
padded with zeros after the sign to a minimum total width of 2. -/
def format02 (n : Int) : List Nat :=
  if n < 0 then
    let ds := natDigits n.natAbs
    45 :: (List.replicate (2 - (ds.length + 1)) 48 ++ ds)
  else
    let ds := natDigits n.toNat
    List.replicate (2 - ds.length) 48 ++ ds

/-- The advisory printed by `RaceEdition.results` for post-2022 editions. -/
def gcWarning : List Nat :=
  pyStr "Warning: results_table might show GC results. Check the standings attribute for other classifications."

/-- `RaceEdition.results(classification_num=None, stage_num=None)`.  `gc`
is the numeric code `Classification['gc'].value` of the external
`Classification` enumeration, modelled as a parameter because that
enumeration lives outside this module.  Returns the unchanged object, the
delegated call, and the list of lines printed. -/
def RaceEdition.results (gc : Int) (self : RaceEdition)
    (classification_num : Option Int) (stage_num : PyVal) :
    RaceEdition × FetchCall × List (List Nat) :=
  let zero_padded_stage_num : PyVal :=
    match stage_num with
    | PyVal.vInt n => PyVal.vStr (format02 n)
    | _ => PyVal.vNone
  let printed : List (List Nat) :=
    if 2023 ≤ self.year ∧ classification_num ≠ Option.none ∧
        classification_num ≠ some gc then [gcWarning] else []
  (self,
    { raceId := self.ID, y := some self.year,
      endpoint := EndpointKind.raceEditionResults,
      k := Option.none, j := Option.none,
      l := some (pyOfOptInt classification_num),
      e := some zero_padded_stage_num },
    printed)

/-- `RaceEdition.stage_profiles()`. -/
def RaceEdition.stage_profiles (self : RaceEdition) : RaceEdition × FetchCall :=
  (self,
    { raceId := self.ID, y := some self.year, endpoint := EndpointKind.raceEndpoint,
      k := Option.none, j := Option.none, l := Option.none,
      e := some (PyVal.vStr (pyStr "all")) })

/-- `RaceEdition.startlist()`. -/
def RaceEdition.startlist (self : RaceEdition) : RaceEdition × FetchCall :=
  (self,
    { raceId := self.ID, y := some self.year, endpoint := EndpointKind.raceEndpoint,
      k := some (PyVal.vInt 8),
      j := Option.none, l := Option.none, e := Option.none })

/-- `RaceEdition.startlist_extended()`. -/
def RaceEdition.startlist_extended (self : RaceEdition) : RaceEdition × FetchCall :=
  (self,
    { raceId := self.ID, y := some self.year, endpoint := EndpointKind.raceEndpoint,
      k := some (PyVal.vInt 9),
      j := Option.none, l := Option.none, e := Option.none })

/-- A dictionary of the shape `Race.search` returns on success. -/
structure SearchHit where
  id : Nat
  name : List Nat
  country : List Nat
  date : List Nat
  category : List Nat
deriving DecidableEq

/-- `Race.search(query, year=None, category="1")`, a classmethod.  The
delegated `fc.search_race(query, year, category)` is an external call that
either returns the html (here: its parsed anchors) or raises (here:
`Except.error` carrying the exception text `str(e)`); the embedded
resolver is total, so the source's `except` branch is reached exactly in
the error case.  Returns the result list and the lines printed. -/
def Race.search (query : List Nat) (year : Option Int) (category : List Nat)
    (fetched : Except (List Nat) (List Anchor)) :
    List SearchHit × List (List Nat) :=
  match fetched with
  | Except.error e => ([], [pyStr "Error in Race.search: " ++ e])
  | Except.ok anchors =>
    match search_race_id query anchors (mkRat 7 10) with
    | some race_id => ([⟨race_id, query, [], [], category⟩], [])
    | Option.none => ([], [])

/-- C1: `Race.search` never raises — the embedded function is total — and
whenever the delegated fetch raises (the resolver itself is a total
function in this embedding), the exception is absorbed, the diagnostic
line `Error in Race.search: ...` is printed, and the empty list is
returned, so the caller always receives a list. -/
theorem search_error_returns_empty :
    ∀ (query : List Nat) (year : Option Int) (category errText : List Nat),
      Race.search query year category (Except.error errText)
        = ([], [pyStr "Error in Race.search: " ++ errText]) :=
  fun _ _ _ _ => rfl

/-- C4: on a successful fetch, `Race.search` returns exactly one dict with
keys `id` (the resolved id), `name` (the echoed query), `country` and
`date` (empty strings) and `category` (the echoed category) when
resolution yields an id, and the empty list otherwise; over every fetch
outcome the result list never has more than one element. -/
theorem search_success_shape :
    ∀ (query : List Nat) (year : Option Int) (category : List Nat)
      (anchors : List Anchor),
      (Race.search query year category (Except.ok anchors)
        = match search_race_id query anchors (mkRat 7 10) with
          | some race_id =>
            ([{ id := race_id, name := query, country := [], date := [],
                category := category }], [])
          | Option.none => ([], []))
      ∧ ∀ fetched, (Race.search query year category fetched).1.length ≤ 1 := by
  intro query year category anchors
  refine ⟨rfl, ?_⟩
  intro fetched
  cases fetched with
  | error e => simp [Race.search]
  | ok anchors' =>
    simp only [Race.search]
    cases search_race_id query anchors' (mkRat 7 10) <;> simp

/-- C5: an integer `stage_num` reaches the delegated fetch as the kwarg `e`
holding its 2-digit zero-padded decimal string; in particular 0 is passed
as the string "00". -/
theorem results_zero_pads_stage :
    ∀ (gc : Int) (ed : RaceEdition) (cn : Option Int) (n : Int),
      (RaceEdition.results gc ed cn (PyVal.vInt n)).2.1.e
          = some (PyVal.vStr (format02 n))
      ∧ format02 0 = pyStr "00" :=
  fun _ _ _ _ => ⟨rfl, by decide⟩

/-- C6: `RaceEdition.results` prints the GC advisory exactly once if and
only if the year is at least 2023 and a classification other than the GC
code is requested, and it builds the delegated edition-results call in
every case. -/
theorem results_advisory_iff :
    ∀ (gc : Int) (ed : RaceEdition) (cn : Option Int) (sn : PyVal),
      ((RaceEdition.results gc ed cn sn).2.2
          = if 2023 ≤ ed.year ∧ cn ≠ Option.none ∧ cn ≠ some gc
            then [gcWarning] else [])
      ∧ (RaceEdition.results gc ed cn sn).2.1.endpoint
          = EndpointKind.raceEditionResults :=
  fun _ _ _ _ => ⟨rfl, rfl⟩

/-- C10: a non-integer `stage_num` — Python `None` or any string — is
silently dropped: the kwarg `e` passed to the delegated fetch is `None`. -/
theorem results_drops_non_int_stage :
    ∀ (gc : Int) (ed : RaceEdition) (cn : Option Int),
      (RaceEdition.results gc ed cn PyVal.vNone).2.1.e = some PyVal.vNone
      ∧ ∀ s, (RaceEdition.results gc ed cn (PyVal.vStr s)).2.1.e
          = some PyVal.vNone :=
  fun _ _ _ => ⟨rfl, fun _ => rfl⟩

/-- C9: the identifying fields of a `Race` (ID) and of a `RaceEdition`
(ID, year) never change: every public operation returns the object
unchanged and only reads the fields to build the delegated fetch
parameters. -/
theorem facades_immutable :
    ∀ (r : Race) (ed : RaceEdition) (gc y : Int) (cn : Option Int) (sn : PyVal),
      (r.edition y).1 = r ∧ (r.edition y).2 = ⟨r.ID, y⟩
      ∧ (r.overview cn).1 = r ∧ (r.overview cn).2.raceId = r.ID
      ∧ r.victory_table.1 = r ∧ r.victory_table.2.raceId = r.ID
      ∧ (r.year_by_year cn).1 = r ∧ (r.year_by_year cn).2.raceId = r.ID
      ∧ r.youngest_oldest_winners.1 = r
      ∧ r.youngest_oldest_winners.2.raceId = r.ID
      ∧ r.stage_victories.1 = r ∧ r.stage_victories.2.raceId = r.ID
      ∧ (RaceEdition.results gc ed cn sn).1 = ed
      ∧ (RaceEdition.results gc ed cn sn).2.1.raceId = ed.ID
      ∧ (RaceEdition.results gc ed cn sn).2.1.y = some ed.year
      ∧ ed.stage_profiles.1 = ed ∧ ed.stage_profiles.2.raceId = ed.ID
      ∧ ed.stage_profiles.2.y = some ed.year
      ∧ ed.startlist.1 = ed ∧ ed.startlist.2.raceId = ed.ID
      ∧ ed.startlist.2.y = some ed.year
      ∧ ed.startlist_extended.1 = ed
      ∧ ed.startlist_extended.2.raceId = ed.ID
      ∧ ed.startlist_extended.2.y = some ed.year :=
  fun _ _ _ _ _ _ =>
    ⟨rfl, rfl, rfl, rfl, rfl, rfl, rfl, rfl, rfl, rfl, rfl, rfl,
     rfl, rfl, rfl, rfl, rfl, rfl, rfl, rfl, rfl, rfl, rfl, rfl⟩

/-- Python's `max(..., key=...)` keeps the first element attaining the
maximum key: the fold result splits the list into a strictly smaller
prefix, the chosen element, and a not-larger remainder. -/
theorem bestBySim_first_max :
    ∀ (ms : List (Nat × List Nat × Rat)) (m : Nat × List Nat × Rat),
      ∃ l1 l2, m :: ms = l1 ++ bestBySim m ms :: l2
        ∧ (∀ x ∈ l1, x.2.2 < (bestBySim m ms).2.2)
        ∧ ∀ x ∈ m :: ms, x.2.2 ≤ (bestBySim m ms).2.2 := by
  intro ms
  induction ms with
  | nil =>
    intro m
    refine ⟨[], [], rfl, by simp, ?_⟩
    intro x hx
    rw [List.mem_singleton] at hx
    subst hx
    exact le_refl _
  | cons x ms' ih =>
    intro m
    have hfold : bestBySim m (x :: ms') = bestBySim (if m.2.2 < x.2.2 then x else m) ms' := rfl
    by_cases hx : m.2.2 < x.2.2
    · obtain ⟨l1, l2, hdec, hstrict, hle⟩ := ih x
      rw [if_pos hx] at hfold
      refine ⟨m :: l1, l2, ?_, ?_, ?_⟩
      · rw [hfold, List.cons_append, ← hdec]
      · intro z hz
        rw [hfold]
        rcases List.mem_cons.1 hz with hz | hz
        · subst hz
          exact lt_of_lt_of_le hx (hle x (List.mem_cons_self x ms'))
        · exact hstrict z hz
      · intro z hz
        rw [hfold]
        rcases List.mem_cons.1 hz with hz | hz
        · subst hz
          exact le_of_lt (lt_of_lt_of_le hx (hle x (List.mem_cons_self x ms')))
        · exact hle z hz
    · obtain ⟨l1, l2, hdec, hstrict, hle⟩ := ih m
      rw [if_neg hx] at hfold
      cases l1 with
      | nil =>
        have hb : bestBySim m ms' = m := by
          have := hdec
          simp only [List.nil_append] at this
          exact (List.cons.injEq _ _ _ _ ▸ this).1.symm
        refine ⟨[], x :: ms', ?_, by simp, ?_⟩
        · rw [hfold, hb]
          simp
        · intro z hz
          rw [hfold, hb]
          rcases List.mem_cons.1 hz with hz | hz
          · subst hz; exact le_refl _
          rcases List.mem_cons.1 hz with hz | hz
          · subst hz; exact le_of_not_lt hx
          · have := hle z (List.mem_cons_of_mem m hz)
            rwa [hb] at this
      | cons m' l1' =>
        rw [List.cons_append] at hdec
        injection hdec with he hdec'
        subst he
        refine ⟨m :: x :: l1', l2, ?_, ?_, ?_⟩
        · rw [hfold, List.cons_append, List.cons_append, ← hdec']
        · intro z hz
          rw [hfold]
          rcases List.mem_cons.1 hz with hz | hz
          · subst hz
            exact hstrict z (List.mem_cons_self z l1')
          rcases List.mem_cons.1 hz with hz | hz
          · subst hz
            exact lt_of_le_of_lt (le_of_not_lt hx)
              (hstrict m (List.mem_cons_self m l1'))
          · exact hstrict z (List.mem_cons_of_mem m hz)
        · intro z hz
          rw [hfold]
          rcases List.mem_cons.1 hz with hz | hz
          · subst hz
            exact hle z (List.mem_cons_self z ms')
          rcases List.mem_cons.1 hz with hz | hz
          · subst hz
            exact le_trans (le_of_not_lt hx) (hle m (List.mem_cons_self m ms'))
          · exact hle z (List.mem_cons_of_mem m hz)

/-- C2: when at least one candidate is recorded, `search_race_id` returns
the id of the candidate with the maximum similarity; when several share
that maximum, the one appearing first in document order wins — the
recorded list splits into a strictly-smaller prefix, the returned
candidate, and a not-larger remainder. -/
theorem search_race_id_first_max :
    ∀ (query : List Nat) (anchors : List Anchor) (threshold : Rat),
      searchMatches query anchors threshold ≠ [] →
      ∃ best l1 l2,
        searchMatches query anchors threshold = l1 ++ best :: l2
        ∧ (∀ x ∈ l1, x.2.2 < best.2.2)
        ∧ (∀ x ∈ searchMatches query anchors threshold, x.2.2 ≤ best.2.2)
        ∧ search_race_id query anchors threshold = some best.1 := by
  intro query anchors threshold hne
  cases hm : searchMatches query anchors threshold with
  | nil => exact absurd hm hne
  | cons m ms =>
    obtain ⟨l1, l2, hdec, hstrict, hle⟩ := bestBySim_first_max ms m
    refine ⟨bestBySim m ms, l1, l2, hdec, hstrict, ?_, ?_⟩
    · intro z hz
      exact hle z (hm ▸ hz)
    · simp only [search_race_id, hm]

/-- Concrete instance of `search_race_id_first_max`: two anchors tie with
similarity 1 and the first one, id 5, is returned. -/
theorem search_race_id_first_max_witness :
    searchMatches (pyStr "ab")
        [⟨pyStr "race.php?r=5&y=2", some (pyStr "ab")⟩,
         ⟨pyStr "race.php?r=9", some (pyStr "ab")⟩] (mkRat 7 10) ≠ []
    ∧ ∃ best l1 l2,
        searchMatches (pyStr "ab")
            [⟨pyStr "race.php?r=5&y=2", some (pyStr "ab")⟩,
             ⟨pyStr "race.php?r=9", some (pyStr "ab")⟩] (mkRat 7 10)
          = l1 ++ best :: l2
        ∧ (∀ x ∈ l1, x.2.2 < best.2.2)
        ∧ (∀ x ∈ searchMatches (pyStr "ab")
              [⟨pyStr "race.php?r=5&y=2", some (pyStr "ab")⟩,
               ⟨pyStr "race.php?r=9", some (pyStr "ab")⟩] (mkRat 7 10),
            x.2.2 ≤ best.2.2)
        ∧ search_race_id (pyStr "ab")
              [⟨pyStr "race.php?r=5&y=2", some (pyStr "ab")⟩,
               ⟨pyStr "race.php?r=9", some (pyStr "ab")⟩] (mkRat 7 10)
          = some best.1 :=
  ⟨by decide, search_race_id_first_max _ _ _ (by decide)⟩

/-- C3: a candidate is recorded only for an anchor whose href contains
`race.php?r=`, whose title is present and non-empty with normalized
similarity to the normalized query at least the threshold, and whose href
yields an `r=` digit id; and `search_race_id` returns nothing — not an
error — exactly when no candidate is recorded (in particular when no
anchor matches `race.php?r=` or every similarity is below threshold). -/
theorem search_race_id_candidates :
    ∀ (query : List Nat) (anchors : List Anchor) (threshold : Rat),
      (search_race_id query anchors threshold = Option.none
        ↔ searchMatches query anchors threshold = [])
      ∧ ∀ m ∈ searchMatches query anchors threshold,
          ∃ a ∈ anchors, hasRaceHref a.href = true
            ∧ ∃ title, a.title = some title ∧ title ≠ []
              ∧ threshold ≤ similarity (normalize query) (normalize title)
              ∧ findRid a.href = some m.1 := by
  intro query anchors threshold
  constructor
  · cases hm : searchMatches query anchors threshold with
    | nil => simp [search_race_id, hm]
    | cons m ms => simp [search_race_id, hm]
  · intro m hm
    obtain ⟨a, ha, hc⟩ := List.mem_filterMap.1 hm
    obtain ⟨ha', hpred⟩ := List.mem_filter.1 ha
    refine ⟨a, ha', hpred, ?_⟩
    unfold candidateOf at hc
    split at hc
    next => exact absurd hc (by simp)
    next title ht =>
      split at hc
      next => exact absurd hc (by simp)
      next hnil =>
        split at hc
        next race_id hrid =>
          have hc2 : (if threshold ≤ similarity (normalize query) (normalize title)
              then some (race_id, title,
                similarity (normalize query) (normalize title))
              else Option.none) = some m := hc
          split at hc2
          next hr =>
            injection hc2 with hc'
            exact ⟨title, ht, hnil, hr, by rw [hrid, ← hc']⟩
          next => exact absurd hc2 (by simp)
        next => simp at hc

/-- Concrete instance of `search_race_id_candidates`: the recorded
candidate `(5, "ab", 1)` comes from the first anchor, which satisfies every
recording condition. -/
theorem search_race_id_candidates_witness :
    (5, pyStr "ab", (1 : Rat)) ∈ searchMatches (pyStr "ab")
        [⟨pyStr "race.php?r=5&y=2", some (pyStr "ab")⟩,
         ⟨pyStr "race.php?r=9", some (pyStr "ab")⟩] (mkRat 7 10)
    ∧ ∃ a ∈ [Anchor.mk (pyStr "race.php?r=5&y=2") (some (pyStr "ab")),
             Anchor.mk (pyStr "race.php?r=9") (some (pyStr "ab"))],
        hasRaceHref a.href = true
        ∧ ∃ title, a.title = some title ∧ title ≠ []
          ∧ mkRat 7 10 ≤ similarity (normalize (pyStr "ab")) (normalize title)
          ∧ findRid a.href = some 5 :=
  ⟨by decide,
    (search_race_id_candidates (pyStr "ab")
        [⟨pyStr "race.php?r=5&y=2", some (pyStr "ab")⟩,
         ⟨pyStr "race.php?r=9", some (pyStr "ab")⟩] (mkRat 7 10)).2
      (5, pyStr "ab", (1 : Rat)) (by decide)⟩

/-- Lower-casing is idempotent on codepoints. -/
theorem pyLower_fix (c : Nat) : pyLower (pyLower c) = pyLower c := by
  unfold pyLower
  split_ifs <;> omega

end FirstCycling
